import Mathlib

/-!
Verification of `scripts/flexible_freeze.py` (a time-boxed database maintenance
sweeper) against its natural-language specification.

The Python program is shallowly embedded: external effects (psycopg2
connections, catalog queries, maintenance statements, wall-clock time) are
driven by an explicit environment `Env`, and the mutable program state
(connections created/closed, counters, the time-exit flag, the trace of
executed maintenance statements) is threaded explicitly through `RunState`.
`sys.exit` and uncaught Python exceptions are modelled by the `Halt` type.

Wall-clock time is modelled as integer seconds advancing only at the
program's blocking calls (opening a connection, running the candidate query,
running a maintenance statement, and the inter-database sleep), with
durations supplied by the environment as natural numbers (time never runs
backwards).
-/

namespace FlexibleFreeze

/-- Update the element at position `i` of a list, identity out of range. -/
def updateAt (f : α → α) : Nat → List α → List α
  | _, [] => []
  | 0, a :: l => f a :: l
  | n + 1, a :: l => a :: updateAt f n l

/-- A psycopg2 connection as the program observes it: the database it points
at, the isolation level if one was explicitly set (`some 0` after
`set_isolation_level(ISOLATION_LEVEL_AUTOCOMMIT)`), and whether `close()` was
called on it. -/
structure PgConn where
  dbname : String
  isolation : Option Int
  closed : Bool
deriving Repr, DecidableEq

/-- The ledger of every connection the process has created, in creation
order; a connection is identified by its index in this list. -/
structure PgState where
  conns : List PgConn
deriving Repr, DecidableEq

/-- `psycopg2.connect(...)`: allocates a fresh connection (no isolation level
set, not closed) and returns its index. -/
def psycopg2_connect (s : PgState) (db : String) : PgState × Nat :=
  (⟨s.conns ++ [⟨db, none, false⟩]⟩, s.conns.length)

/-- `conn.set_isolation_level(lvl)` on connection `i`. -/
def set_isolation_level (s : PgState) (i : Nat) (lvl : Int) : PgState :=
  ⟨updateAt (fun c => { c with isolation := some lvl }) i s.conns⟩

/-- `conn.close()` on connection `i`. -/
def conn_close (s : PgState) (i : Nat) : PgState :=
  ⟨updateAt (fun c => { c with closed := true }) i s.conns⟩

/-- Result of `TableUtil.create_connection`: the Python `None` return (missing
database name), a connection index, or a `sys.exit(code)`. -/
inductive CCResult
  | noneConn
  | conn (i : Nat)
  | exited (code : Nat)
deriving Repr, DecidableEq

/-- Embeds `TableUtil.create_connection` (source lines 56-84).  `connectOk`
models whether `psycopg2.connect` succeeds for this target.  With a falsy
`dbname` the function logs and returns `None`.  Otherwise it connects once,
sets ISOLATION_LEVEL_AUTOCOMMIT (= 0) on that connection and discards it,
then connects a second time and returns the second connection, on which it
never set the isolation level.  A connection failure is logged
("connection to database ... failed, aborting") and the process exits with
status 1. -/
def create_connection (s : PgState) (connectOk : Bool) (dbname : String) :
    PgState × CCResult :=
  if dbname = "" then (s, CCResult.noneConn)
  else if connectOk then
    let p1 := psycopg2_connect s dbname
    let s2 := set_isolation_level p1.1 p1.2 0
    let p2 := psycopg2_connect s2 dbname
    (p2.1, CCResult.conn p2.2)
  else (s, CCResult.exited 1)

/-- Result of `TableUtil.get_db_list`: a database list or `sys.exit(code)`. -/
inductive GDBResult
  | dbs (l : List String)
  | exited (code : Nat)
deriving Repr, DecidableEq

/-- The Python test `db_list is None` applied to the list value built by
`get_db_list`: a Python list object (even an empty one) is never `None`, so
this test is always false. -/
def pyListIsNone (_l : List String) : Bool := false

/-- Embeds `TableUtil.get_db_list` (source lines 86-106).  With an explicit
`--databases` argument the string is split on commas and returned verbatim.
Otherwise a connection to the administrative database `postgres` is opened
(its failure exits the process with status 1, via `create_connection`), the
non-system databases are listed ordered by `age(datfrozenxid) DESC`
(`pgDatabases` supplies the query's rows), and the administrative connection
is closed.  The `db_list is not None` test then always succeeds, so the
"No database to vacuum" / `sys.exit(0)` branch is unreachable and the list is
returned even when it is empty. -/
def get_db_list (dblist : Option String) (connectOkPostgres : Bool)
    (pgDatabases : List String) : GDBResult :=
  match dblist with
  | none =>
    if connectOkPostgres then
      let db_list := pgDatabases
      if pyListIsNone db_list then GDBResult.exited 0 else GDBResult.dbs db_list
    else GDBResult.exited 1
  | some s => GDBResult.dbs (s.splitOn ",")

/-- The maintenance statement text chosen by `TableUtil.vacuum`
(source lines 168-171). -/
def vacuumQuery (vacuumFlag : Bool) (table : String) : String :=
  if vacuumFlag then "VACUUM ANALYZE " ++ table
  else "VACUUM FREEZE ANALYZE " ++ table

/-- Outcome of `TableUtil.vacuum`: the statement succeeded, or the process
exited via `sys.exit(code)`. -/
inductive VacResult
  | ok
  | exited (code : Nat)
deriving Repr, DecidableEq

/-- Embeds `TableUtil.vacuum` (source lines 165-190).  `now` is `time.time()`
at entry; `stmtOk` models whether the maintenance statement succeeds.
`timeout_secs = int(halt_time - time.time()) + 30` is always computed, and
`SET statement_timeout` is executed with it exactly when `enforce_time` is
set (the first component of the result is the timeout applied, `none` when
the flag is unset).  When the statement raises, the handler logs the failure
and — in both branches of its time test — calls `sys.exit(1)`. -/
def vacuum (now halt_time : Int) (enforce_time : Bool) (stmtOk : Bool) :
    Option Int × VacResult :=
  let timeout_secs := halt_time - now + 30
  let applied := if enforce_time then some timeout_secs else none
  if stmtOk then (applied, VacResult.ok) else (applied, VacResult.exited 1)

/-- A backend row of `pg_stat_activity` as seen by the cleanup query. -/
structure Backend where
  pid : Nat
  appName : String
deriving Repr, DecidableEq

/-- Semantics of the cleanup query's WHERE clause (source lines 193-194):
the backends terminated are those whose `application_name` is
`'flexible_freeze'` and whose pid differs from the requester's own backend
(`pid != pg_backend_pid()`). -/
def terminate_backend_targets (selfPid : Nat) (bs : List Backend) : List Backend :=
  bs.filter (fun b => b.appName == "flexible_freeze" && b.pid != selfPid)

/-- Result of `TableUtil.cleanup`: `done n` with `n` termination requests
issued, or the AttributeError raised by calling `.cursor()` on `None`. -/
inductive CleanupResult
  | done (terminationRequests : Nat)
  | attrError
deriving Repr, DecidableEq

/-- Embeds `TableUtil.cleanup` (source lines 192-197).  `conn` is
`self.conn`: `none` models the Python `None` it holds before any connection
is made, on which `.cursor()` raises AttributeError.  Otherwise exactly one
termination request (the `pg_terminate_backend` query whose scope is
`terminate_backend_targets`) is executed and the connection is closed. -/
def cleanup (s : PgState) (conn : Option Nat) : PgState × CleanupResult :=
  match conn with
  | none => (s, CleanupResult.attrError)
  | some i => (conn_close s i, CleanupResult.done 1)

/-- The command-line arguments consumed by the run (argparse defaults in
`parse_arguments`, source lines 11-47).  Logging and connection-string
fields (user/host/port/password, verbosity, log file) do not influence the
modelled control flow and are omitted. -/
structure Args where
  run_min : Int
  dblist : Option String
  vacuum : Bool
  pause_time : Nat
  freezeage : Int
  costdelay : Int
  costlimit : Int
  enforcetime : Bool
deriving Repr, DecidableEq

/-- The external world: the clock origin, whether `psycopg2.connect` succeeds
per database, the rows of the database-ranking query, the rows of the
candidate-selection query per database, whether each maintenance statement
succeeds, and the wall-clock seconds consumed by each blocking call. -/
structure Env where
  startTime : Int
  connectOk : String → Bool
  pgDatabases : List String
  tables : String → List String
  stmtOk : String → String → Bool
  connDur : String → Nat
  listDur : String → Nat
  vacDur : String → String → Nat

/-- One executed maintenance statement: the database and table, the value of
`time.time()` when the statement was started, the `statement_timeout` applied
to it (`none` without `--enforce-time`), and whether it succeeded. -/
structure VacEvent where
  db : String
  table : String
  startedAt : Int
  timeoutApplied : Option Int
  ok : Bool
deriving Repr, DecidableEq

/-- The program state threaded through `TableUtil.main`: the connection
ledger, the current `time.time()`, the `time_exit` flag, the
`table_count` / `db_count` counters, the trace of maintenance sessions
opened by the per-database loop (database name and the `time.time()` at
which the session was opened) and the trace of maintenance statements
started. -/
structure RunState where
  pg : PgState
  now : Int
  time_exit : Bool
  table_count : Nat
  db_count : Nat
  sessionOpens : List (String × Int)
  vacuums : List VacEvent
deriving Repr, DecidableEq

/-- How the process left `TableUtil.main`: a `sys.exit(code)`, or an uncaught
Python exception (e.g. AttributeError on `None`). -/
inductive Halt
  | exited (code : Nat)
  | crashed
deriving Repr, DecidableEq

/-- Embeds the per-table loop of `TableUtil.main` (source lines 238-247).
For each table: if `time.time() >= halt_time`, set `time_exit` and break out
of the table loop; otherwise increment `table_count` and run
`TableUtil.vacuum` (recording the statement in the trace and advancing the
clock by its duration).  A statement failure makes `vacuum` exit the process
with status 1, returned here as `some 1`. -/
def tableLoop (env : Env) (args : Args) (halt_time : Int) (db : String) :
    RunState → List String → RunState × Option Nat
  | st, [] => (st, none)
  | st, t :: rest =>
    if st.now ≥ halt_time then
      ({ st with time_exit := true }, none)
    else
      let st1 := { st with table_count := st.table_count + 1 }
      let vr := vacuum st1.now halt_time args.enforcetime (env.stmtOk db t)
      let ev : VacEvent := ⟨db, t, st1.now, vr.1, env.stmtOk db t⟩
      let st2 := { st1 with vacuums := st1.vacuums ++ [ev],
                            now := st1.now + (env.vacDur db t : Int) }
      match vr.2 with
      | VacResult.ok => tableLoop env args halt_time db st2 rest
      | VacResult.exited c => (st2, some c)

/-- Embeds the per-database loop of `TableUtil.main` (source lines 219-250).
For each database: open a connection via `create_connection` (its failure
exits the process with status 1; a `None` return crashes at
`self.conn.set_isolation_level(0)`), set autocommit on it, then — only
now — test `time_exit` and break if it is set (leaving this connection
open).  Otherwise increment `db_count`, apply the vacuum-cost settings,
fetch the candidate list, run the per-table loop, sleep `pause_time`
seconds, close the connection and continue with the next database. -/
def dbLoop (env : Env) (args : Args) (halt_time : Int) :
    RunState → List String → RunState × Option Halt
  | st, [] => (st, none)
  | st, db :: dbs =>
    let cc := create_connection st.pg (env.connectOk db) db
    match cc.2 with
    | CCResult.exited c => ({ st with pg := cc.1 }, some (Halt.exited c))
    | CCResult.noneConn => ({ st with pg := cc.1 }, some Halt.crashed)
    | CCResult.conn i =>
      let st1 := { st with pg := set_isolation_level cc.1 i 0,
                           now := st.now + (env.connDur db : Int),
                           sessionOpens := st.sessionOpens ++ [(db, st.now)] }
      if st1.time_exit then (st1, none)
      else
        let st2 := { st1 with db_count := st1.db_count + 1,
                              now := st1.now + (env.listDur db : Int) }
        let tl := tableLoop env args halt_time db st2 (env.tables db)
        match tl.2 with
        | some c => (tl.1, some (Halt.exited c))
        | none =>
          let st3 := { tl.1 with now := tl.1.now + (args.pause_time : Int),
                                 pg := conn_close tl.1.pg i }
          dbLoop env args halt_time st3 dbs

/-- The absolute deadline computed once at run start (source line 206):
`halt_time = time.time() + args.run_min * 60`. -/
def haltTime (env : Env) (args : Args) : Int :=
  env.startTime + args.run_min * 60

/-- Embeds `TableUtil.main` (source lines 199-260): compute `halt_time`,
enumerate the databases (a setup failure exits immediately), run the
per-database loop, and finish with `sys.exit(0)` on the normal path. -/
def main (env : Env) (args : Args) : RunState × Halt :=
  let st0 : RunState :=
    { pg := ⟨[]⟩, now := env.startTime, time_exit := false,
      table_count := 0, db_count := 0, sessionOpens := [], vacuums := [] }
  match get_db_list args.dblist (env.connectOk "postgres") env.pgDatabases with
  | GDBResult.exited c => (st0, Halt.exited c)
  | GDBResult.dbs db_list =>
    let r := dbLoop env args (haltTime env args) st0 db_list
    match r.2 with
    | some h => (r.1, h)
    | none => (r.1, Halt.exited 0)

/-- The argparse defaults (source lines 11-47). -/
def args0 : Args :=
  { run_min := 120, dblist := none, vacuum := false, pause_time := 10,
    freezeage := 10000000, costdelay := 20, costlimit := 2000,
    enforcetime := false }

/-- A quiet default environment: every connection succeeds, no databases, no
candidate tables, every statement succeeds, every blocking call instantaneous. -/
def env0 : Env :=
  { startTime := 0, connectOk := fun _ => true, pgDatabases := [],
    tables := fun _ => [], stmtOk := fun _ _ => true,
    connDur := fun _ => 0, listDur := fun _ => 0, vacDur := fun _ _ => 0 }

/-- Environment for the single-failure scenario: one database `a` with
candidates `t1, t2`, where the maintenance statement on `t1` fails. -/
def envFailFirst : Env :=
  { env0 with pgDatabases := ["a"],
              tables := fun d => if d = "a" then ["t1", "t2"] else [],
              stmtOk := fun _ t => t ≠ "t1" }

/-- Environment in which the connection to database `a` fails. -/
def envConnAFails : Env :=
  { env0 with pgDatabases := ["a", "b"], connectOk := fun d => d ≠ "a" }

/-- Environment for the deadline-overrun scenario: databases `a` (candidate
`t`, taking 100 seconds) and `b` (candidate `u`). -/
def envSlowVac : Env :=
  { env0 with
      pgDatabases := ["a", "b"],
      tables := fun d => if d = "a" then ["t"] else if d = "b" then ["u"] else [],
      vacDur := fun _ _ => 100 }

/-- Environment for the 2nd-of-3-candidates-fails scenario on database `a`. -/
def envSecondFails : Env :=
  { env0 with pgDatabases := ["a"],
              tables := fun d => if d = "a" then ["t1", "t2", "t3"] else [],
              stmtOk := fun _ t => t ≠ "t2" }

/-- Environment with a single database `a` holding one candidate `t` that
succeeds instantly. -/
def envOneTable : Env :=
  { env0 with pgDatabases := ["a"],
              tables := fun d => if d = "a" then ["t"] else [] }

/-- Derived form of the run state right after a `dbLoop` iteration has
successfully opened and configured the session for `db` (two connections
appended by `create_connection`, autocommit set on both — on the first by the
factory, on the second by `main` — the session opening recorded, `db_count`
incremented) and fetched the candidate list.  Used by the unfolding lemmas
below. -/
def dbOpenState (env : Env) (st : RunState) (db : String) : RunState :=
  { st with
      pg := ⟨st.pg.conns ++ [⟨db, some 0, false⟩, ⟨db, some 0, false⟩]⟩
      now := st.now + (env.connDur db : Int) + (env.listDur db : Int)
      sessionOpens := st.sessionOpens ++ [(db, st.now)]
      db_count := st.db_count + 1 }

/-- Derived form of the run state with which `dbLoop` continues to the next
database after a full successful iteration on `db`: the per-table loop's
final state, with the pause applied to the clock and the session connection
(index `st.pg.conns.length + 1`) closed. -/
def dbNextState (env : Env) (args : Args) (halt : Int) (st : RunState)
    (db : String) : RunState :=
  { (tableLoop env args halt db (dbOpenState env st db) (env.tables db)).1 with
      now := (tableLoop env args halt db (dbOpenState env st db)
        (env.tables db)).1.now + (args.pause_time : Int)
      pg := conn_close (tableLoop env args halt db (dbOpenState env st db)
        (env.tables db)).1.pg (st.pg.conns.length + 1) }

lemma length_updateAt (f : α → α) (i : Nat) (l : List α) :
    (updateAt f i l).length = l.length := by
  induction l generalizing i with
  | nil => cases i <;> rfl
  | cons a l ih =>
    cases i with
    | zero => rfl
    | succ n => simpa [updateAt] using ih n

lemma updateAt_append_length (f : α → α) (l : List α) (a : α) :
    updateAt f l.length (l ++ [a]) = l ++ [f a] := by
  induction l with
  | nil => rfl
  | cons b l ih => simpa [updateAt] using ih

lemma getElem?_append_lt (l₁ l₂ : List α) (j : Nat) (h : j < l₁.length) :
    (l₁ ++ l₂)[j]? = l₁[j]? := by
  induction l₁ generalizing j with
  | nil => exact absurd h (by simp)
  | cons a l ih =>
    cases j with
    | zero => simp
    | succ n => simpa using ih n (by simpa using h)

lemma getElem?_append_length (l : List α) (a : α) :
    (l ++ [a])[l.length]? = some a := by
  induction l with
  | nil => rfl
  | cons b l ih => simp [ih]

lemma getElem?_updateAt_ne (f : α → α) (i j : Nat) (l : List α) (h : j ≠ i) :
    (updateAt f i l)[j]? = l[j]? := by
  induction l generalizing i j with
  | nil => cases i <;> rfl
  | cons a l ih =>
    cases i with
    | zero =>
      cases j with
      | zero => exact absurd rfl h
      | succ m => simp [updateAt]
    | succ n =>
      cases j with
      | zero => simp [updateAt]
      | succ m => simpa [updateAt] using ih n m (by omega)

/-- Unfolding of a successful `create_connection`: two fresh connections are
appended, autocommit is set on the first, and the index of the second is
returned. -/
lemma create_connection_ok (s : PgState) (db : String) (h : db ≠ "") :
    create_connection s true db =
      (⟨s.conns ++ [⟨db, some 0, false⟩, ⟨db, none, false⟩]⟩,
        CCResult.conn (s.conns.length + 1)) := by
  simp only [create_connection, if_neg h, if_pos rfl, psycopg2_connect,
    set_isolation_level, updateAt_append_length]
  simp

/-- The per-table loop never touches the connection ledger. -/
lemma tableLoop_pg (env : Env) (args : Args) (halt : Int) (db : String) :
    ∀ (l : List String) (st : RunState),
    (tableLoop env args halt db st l).1.pg = st.pg := by
  intro l
  induction l with
  | nil => intro st; rfl
  | cons t rest ih =>
    intro st
    by_cases h : st.now ≥ halt
    · simp [tableLoop, if_pos h]
    · cases hok : env.stmtOk db t
      · simp [tableLoop, if_neg h, vacuum, hok]
      · simp [tableLoop, if_neg h, vacuum, hok, ih]

/-- The per-table loop never records a session opening. -/
lemma tableLoop_sessionOpens (env : Env) (args : Args) (halt : Int) (db : String) :
    ∀ (l : List String) (st : RunState),
    (tableLoop env args halt db st l).1.sessionOpens = st.sessionOpens := by
  intro l
  induction l with
  | nil => intro st; rfl
  | cons t rest ih =>
    intro st
    by_cases h : st.now ≥ halt
    · simp [tableLoop, if_pos h]
    · cases hok : env.stmtOk db t
      · simp [tableLoop, if_neg h, vacuum, hok]
      · simp [tableLoop, if_neg h, vacuum, hok, ih]

/-- Through the per-table loop, `table_count` grows by exactly the number of
maintenance statements started (the growth of the statement trace). -/
lemma tableLoop_count (env : Env) (args : Args) (halt : Int) (db : String) :
    ∀ (l : List String) (st : RunState),
    (tableLoop env args halt db st l).1.table_count + st.vacuums.length
      = st.table_count + (tableLoop env args halt db st l).1.vacuums.length := by
  intro l
  induction l with
  | nil => intro st; rfl
  | cons t rest ih =>
    intro st
    by_cases h : st.now ≥ halt
    · simp [tableLoop, if_pos h]
    · cases hok : env.stmtOk db t
      · simp [tableLoop, if_neg h, vacuum, hok]; omega
      · have := ih { st with
          table_count := st.table_count + 1
          vacuums := st.vacuums ++
            [⟨db, t, st.now,
              (if args.enforcetime then some (halt - st.now + 30) else none),
              env.stmtOk db t⟩]
          now := st.now + (env.vacDur db t : Int) }
        simp [tableLoop, if_neg h, vacuum, hok] at this ⊢
        omega

/-- Every maintenance statement in the trace after the per-table loop either
was already there or was started strictly before the deadline, with the
statement timeout of `TableUtil.vacuum` applied exactly when `--enforce-time`
is set. -/
lemma tableLoop_vac_events (env : Env) (args : Args) (halt : Int) (db : String) :
    ∀ (l : List String) (st : RunState) (e : VacEvent),
    e ∈ (tableLoop env args halt db st l).1.vacuums →
    e ∈ st.vacuums ∨ (e.startedAt < halt ∧ e.timeoutApplied =
      (if args.enforcetime then some (halt - e.startedAt + 30) else none)) := by
  intro l
  induction l with
  | nil => intro st e he; exact Or.inl he
  | cons t rest ih =>
    intro st e he
    by_cases h : st.now ≥ halt
    · simp only [tableLoop, if_pos h] at he
      exact Or.inl he
    · cases hok : env.stmtOk db t
      · simp only [tableLoop, if_neg h, vacuum, hok] at he
        simp at he
        rcases he with h1 | h1
        · exact Or.inl h1
        · right
          subst h1
          exact ⟨not_le.mp h, rfl⟩
      · simp only [tableLoop, if_neg h, vacuum, hok] at he
        rcases ih _ e he with h1 | h1
        · simp at h1
          rcases h1 with h2 | h2
          · exact Or.inl h2
          · right
            subst h2
            exact ⟨not_le.mp h, rfl⟩
        · exact Or.inr h1

/-- Once the deadline is already reached, the per-table loop does no work:
counters, traces and the clock are untouched and no exit is raised. -/
lemma tableLoop_halted (env : Env) (args : Args) (halt : Int) (db : String)
    (l : List String) (st : RunState) (h : halt ≤ st.now) :
    (tableLoop env args halt db st l).1.table_count = st.table_count ∧
    (tableLoop env args halt db st l).1.vacuums = st.vacuums ∧
    (tableLoop env args halt db st l).1.now = st.now ∧
    (tableLoop env args halt db st l).2 = none := by
  cases l with
  | nil => exact ⟨rfl, rfl, rfl, rfl⟩
  | cons t rest => simp [tableLoop, if_pos (show st.now ≥ halt from h)]

/-- Unfolding of one `dbLoop` iteration when the database name is empty:
`create_connection` returns `None` and `self.conn.set_isolation_level(0)`
raises on it. -/
lemma dbLoop_cons_empty (env : Env) (args : Args) (halt : Int)
    (st : RunState) (db : String) (dbs : List String) (hdb : db = "") :
    dbLoop env args halt st (db :: dbs) = (st, some Halt.crashed) := by
  simp [dbLoop, create_connection, hdb]

/-- Unfolding of one `dbLoop` iteration when the connection to `db` fails:
the whole process exits with status 1 at once. -/
lemma dbLoop_cons_connfail (env : Env) (args : Args) (halt : Int)
    (st : RunState) (db : String) (dbs : List String) (hdb : db ≠ "")
    (hok : env.connectOk db = false) :
    dbLoop env args halt st (db :: dbs) = (st, some (Halt.exited 1)) := by
  simp [dbLoop, create_connection, hdb, hok]

/-- Unfolding of one `dbLoop` iteration when the connection succeeds but
`time_exit` is already set: the loop breaks right after opening (and never
closing) the two connections of `create_connection`, on the second of which
autocommit was also set by `main`. -/
lemma dbLoop_cons_te (env : Env) (args : Args) (halt : Int)
    (st : RunState) (db : String) (dbs : List String) (hdb : db ≠ "")
    (hok : env.connectOk db = true) (hte : st.time_exit = true) :
    dbLoop env args halt st (db :: dbs) =
      ({ st with
          pg := ⟨st.pg.conns ++ [⟨db, some 0, false⟩, ⟨db, some 0, false⟩]⟩
          now := st.now + (env.connDur db : Int)
          sessionOpens := st.sessionOpens ++ [(db, st.now)] }, none) := by
  have hpg : set_isolation_level
      (⟨st.pg.conns ++ [⟨db, some 0, false⟩, ⟨db, none, false⟩]⟩ : PgState)
      (st.pg.conns.length + 1) 0 =
      ⟨st.pg.conns ++ [⟨db, some 0, false⟩, ⟨db, some 0, false⟩]⟩ := by
    have := updateAt_append_length
      (fun c : PgConn => { c with isolation := some 0 })
      (st.pg.conns ++ [⟨db, some 0, false⟩]) ⟨db, none, false⟩
    simp only [set_isolation_level]
    simpa using this
  simp [dbLoop, create_connection_ok st.pg db hdb, hok, hte, hpg]

/-- Unfolding of one full `dbLoop` iteration (successful connection,
`time_exit` not yet set) when the per-table loop exits the process. -/
lemma dbLoop_cons_ok_exit (env : Env) (args : Args) (halt : Int)
    (st : RunState) (db : String) (dbs : List String) (c : Nat)
    (hdb : db ≠ "") (hok : env.connectOk db = true) (hte : st.time_exit = false)
    (htl : (tableLoop env args halt db (dbOpenState env st db) (env.tables db)).2
      = some c) :
    dbLoop env args halt st (db :: dbs) =
      ((tableLoop env args halt db (dbOpenState env st db) (env.tables db)).1,
        some (Halt.exited c)) := by
  have hpg : set_isolation_level
      (⟨st.pg.conns ++ [⟨db, some 0, false⟩, ⟨db, none, false⟩]⟩ : PgState)
      (st.pg.conns.length + 1) 0 =
      ⟨st.pg.conns ++ [⟨db, some 0, false⟩, ⟨db, some 0, false⟩]⟩ := by
    have := updateAt_append_length
      (fun c : PgConn => { c with isolation := some 0 })
      (st.pg.conns ++ [⟨db, some 0, false⟩]) ⟨db, none, false⟩
    simp only [set_isolation_level]
    simpa using this
  simp only [dbLoop, create_connection_ok st.pg db hdb, hok, hte, hpg]
  simp only [dbOpenState, hte] at htl
  simp [htl, dbOpenState, hte]

/-- Unfolding of one full `dbLoop` iteration (successful connection,
`time_exit` not yet set) when the per-table loop returns normally: after the
pause, the session (the second of the two connections `create_connection`
opened, at index `st.pg.conns.length + 1`) is closed and the loop continues
with the remaining databases. -/
lemma dbLoop_cons_ok_cont (env : Env) (args : Args) (halt : Int)
    (st : RunState) (db : String) (dbs : List String)
    (hdb : db ≠ "") (hok : env.connectOk db = true) (hte : st.time_exit = false)
    (htl : (tableLoop env args halt db (dbOpenState env st db) (env.tables db)).2
      = none) :
    dbLoop env args halt st (db :: dbs) =
      dbLoop env args halt (dbNextState env args halt st db) dbs := by
  have hpg : set_isolation_level
      (⟨st.pg.conns ++ [⟨db, some 0, false⟩, ⟨db, none, false⟩]⟩ : PgState)
      (st.pg.conns.length + 1) 0 =
      ⟨st.pg.conns ++ [⟨db, some 0, false⟩, ⟨db, some 0, false⟩]⟩ := by
    have := updateAt_append_length
      (fun c : PgConn => { c with isolation := some 0 })
      (st.pg.conns ++ [⟨db, some 0, false⟩]) ⟨db, none, false⟩
    simp only [set_isolation_level]
    simpa using this
  simp only [dbLoop, create_connection_ok st.pg db hdb, hok, hte, hpg]
  simp only [dbOpenState, hte] at htl
  simp [htl, dbOpenState, dbNextState, hte]

/-- Once the deadline is already reached, the remaining `dbLoop` iterations
process no table and start no maintenance statement (sessions may still be
opened, but every per-table loop halts at its first deadline check). -/
lemma dbLoop_halted (env : Env) (args : Args) (halt : Int) :
    ∀ (l : List String) (st : RunState), halt ≤ st.now →
    (dbLoop env args halt st l).1.table_count = st.table_count ∧
    (dbLoop env args halt st l).1.vacuums = st.vacuums := by
  intro l
  induction l with
  | nil => intro st _; exact ⟨rfl, rfl⟩
  | cons db dbs ih =>
    intro st h
    by_cases hdb : db = ""
    · rw [dbLoop_cons_empty env args halt st db dbs hdb]
      exact ⟨rfl, rfl⟩
    · cases hok : env.connectOk db
      · rw [dbLoop_cons_connfail env args halt st db dbs hdb hok]
        exact ⟨rfl, rfl⟩
      · cases hte : st.time_exit
        · have h2 : halt ≤ (dbOpenState env st db).now := by
            simp only [dbOpenState]
            omega
          obtain ⟨hc, hv, hn, he⟩ :=
            tableLoop_halted env args halt db (env.tables db) (dbOpenState env st db) h2
          rw [dbLoop_cons_ok_cont env args halt st db dbs hdb hok hte he]
          have h3 : halt ≤ (dbNextState env args halt st db).now := by
            simp only [dbNextState, hn]
            simp only [dbOpenState]
            omega
          obtain ⟨ic, iv⟩ := ih (dbNextState env args halt st db) h3
          constructor
          · rw [ic]
            dsimp only [dbNextState]
            rw [hc]
            dsimp only [dbOpenState]
          · rw [iv]
            dsimp only [dbNextState]
            rw [hv]
            dsimp only [dbOpenState]
        · rw [dbLoop_cons_te env args halt st db dbs hdb hok hte]
          exact ⟨rfl, rfl⟩

/-- Through the per-database loop, `table_count` grows by exactly the number
of maintenance statements started. -/
lemma dbLoop_count (env : Env) (args : Args) (halt : Int) :
    ∀ (l : List String) (st : RunState),
    (dbLoop env args halt st l).1.table_count + st.vacuums.length
      = st.table_count + (dbLoop env args halt st l).1.vacuums.length := by
  intro l
  induction l with
  | nil => intro st; rfl
  | cons db dbs ih =>
    intro st
    by_cases hdb : db = ""
    · rw [dbLoop_cons_empty env args halt st db dbs hdb]
    · cases hok : env.connectOk db
      · rw [dbLoop_cons_connfail env args halt st db dbs hdb hok]
      · cases hte : st.time_exit
        · have htc := tableLoop_count env args halt db (env.tables db)
            (dbOpenState env st db)
          cases htl : (tableLoop env args halt db (dbOpenState env st db)
              (env.tables db)).2 with
          | none =>
            rw [dbLoop_cons_ok_cont env args halt st db dbs hdb hok hte htl]
            have := ih (dbNextState env args halt st db)
            simp only [dbNextState, dbOpenState] at this htc ⊢
            omega
          | some c =>
            rw [dbLoop_cons_ok_exit env args halt st db dbs c hdb hok hte htl]
            simp only [dbOpenState] at htc ⊢
            omega
        · rw [dbLoop_cons_te env args halt st db dbs hdb hok hte]

/-- Every maintenance statement in the trace after the per-database loop
either was already there or was started strictly before the deadline, with
the statement timeout applied exactly when `--enforce-time` is set. -/
lemma dbLoop_vac_events (env : Env) (args : Args) (halt : Int) :
    ∀ (l : List String) (st : RunState) (e : VacEvent),
    e ∈ (dbLoop env args halt st l).1.vacuums →
    e ∈ st.vacuums ∨ (e.startedAt < halt ∧ e.timeoutApplied =
      (if args.enforcetime then some (halt - e.startedAt + 30) else none)) := by
  intro l
  induction l with
  | nil => intro st e he; exact Or.inl he
  | cons db dbs ih =>
    intro st e he
    by_cases hdb : db = ""
    · rw [dbLoop_cons_empty env args halt st db dbs hdb] at he
      exact Or.inl he
    · cases hok : env.connectOk db
      · rw [dbLoop_cons_connfail env args halt st db dbs hdb hok] at he
        exact Or.inl he
      · cases hte : st.time_exit
        · cases htl : (tableLoop env args halt db (dbOpenState env st db)
              (env.tables db)).2 with
          | none =>
            rw [dbLoop_cons_ok_cont env args halt st db dbs hdb hok hte htl] at he
            rcases ih (dbNextState env args halt st db) e he with h1 | h1
            · simp only [dbNextState] at h1
              rcases tableLoop_vac_events env args halt db (env.tables db)
                  (dbOpenState env st db) e h1 with h2 | h2
              · exact Or.inl h2
              · exact Or.inr h2
            · exact Or.inr h1
          | some c =>
            rw [dbLoop_cons_ok_exit env args halt st db dbs c hdb hok hte htl] at he
            rcases tableLoop_vac_events env args halt db (env.tables db)
                (dbOpenState env st db) e he with h2 | h2
            · exact Or.inl h2
            · exact Or.inr h2
        · rw [dbLoop_cons_te env args halt st db dbs hdb hok hte] at he
          exact Or.inl he

lemma getElem?_append_cons_length (l l₂ : List α) (a : α) :
    (l ++ a :: l₂)[l.length]? = some a := by
  induction l with
  | nil => simp
  | cons b l ih =>
    simp only [List.cons_append, List.length_cons, List.getElem?_cons_succ]
    exact ih

/-- The connection ledger after a full successful `dbLoop` iteration on
`db`: the two connections opened by `create_connection` are appended (both
with autocommit set — by the factory on the first, by `main` on the second)
and only the second one is closed. -/
lemma dbNextState_pg (env : Env) (args : Args) (halt : Int)
    (st : RunState) (db : String) :
    (dbNextState env args halt st db).pg.conns
      = st.pg.conns ++ [⟨db, some 0, false⟩, ⟨db, some 0, true⟩] := by
  have h := updateAt_append_length (fun c : PgConn => { c with closed := true })
    (st.pg.conns ++ [⟨db, some 0, false⟩]) ⟨db, some 0, false⟩
  dsimp only [dbNextState, conn_close]
  rw [tableLoop_pg]
  dsimp only [dbOpenState]
  simpa using h

/-- The per-database loop only appends to the connection ledger and only
modifies (configures or closes) connections it itself created: every ledger
entry present at entry is untouched, and the ledger never shrinks. -/
lemma dbLoop_pg_stable (env : Env) (args : Args) (halt : Int) :
    ∀ (l : List String) (st : RunState) (j : Nat), j < st.pg.conns.length →
    (dbLoop env args halt st l).1.pg.conns[j]? = st.pg.conns[j]? ∧
    st.pg.conns.length ≤ (dbLoop env args halt st l).1.pg.conns.length := by
  intro l
  induction l with
  | nil => intro st j hj; exact ⟨rfl, le_refl _⟩
  | cons db dbs ih =>
    intro st j hj
    by_cases hdb : db = ""
    · rw [dbLoop_cons_empty env args halt st db dbs hdb]
      exact ⟨rfl, le_refl _⟩
    · cases hok : env.connectOk db
      · rw [dbLoop_cons_connfail env args halt st db dbs hdb hok]
        exact ⟨rfl, le_refl _⟩
      · cases hte : st.time_exit
        · cases htl : (tableLoop env args halt db (dbOpenState env st db)
              (env.tables db)).2 with
          | some c =>
            rw [dbLoop_cons_ok_exit env args halt st db dbs c hdb hok hte htl]
            rw [tableLoop_pg]
            dsimp only [dbOpenState]
            constructor
            · exact getElem?_append_lt _ _ j hj
            · simp
          | none =>
            rw [dbLoop_cons_ok_cont env args halt st db dbs hdb hok hte htl]
            have hlen : (dbNextState env args halt st db).pg.conns.length
                = st.pg.conns.length + 2 := by
              rw [dbNextState_pg]; simp
            obtain ⟨s1, s2⟩ := ih (dbNextState env args halt st db) j
              (by omega)
            refine ⟨?_, ?_⟩
            · rw [s1, dbNextState_pg]
              exact getElem?_append_lt _ _ j hj
            · omega
        · rw [dbLoop_cons_te env args halt st db dbs hdb hok hte]
          dsimp only
          constructor
          · exact getElem?_append_lt _ _ j hj
          · simp

/-- Every maintenance statement the run starts is started strictly before
the deadline, and carries the statement timeout exactly when
`--enforce-time` is set. -/
lemma main_vac_events (env : Env) (args : Args) (e : VacEvent)
    (he : e ∈ (main env args).1.vacuums) :
    e.startedAt < haltTime env args ∧ e.timeoutApplied =
      (if args.enforcetime then some (haltTime env args - e.startedAt + 30)
        else none) := by
  simp only [main] at he
  cases hg : get_db_list args.dblist (env.connectOk "postgres") env.pgDatabases with
  | exited c =>
    rw [hg] at he
    simp at he
  | dbs l =>
    rw [hg] at he
    dsimp only at he
    cases hr : (dbLoop env args (haltTime env args)
        ⟨⟨[]⟩, env.startTime, false, 0, 0, [], []⟩ l).2 with
    | some h =>
      rw [hr] at he
      dsimp only at he
      rcases dbLoop_vac_events env args (haltTime env args) l
          ⟨⟨[]⟩, env.startTime, false, 0, 0, [], []⟩ e he with h1 | h1
      · simp at h1
      · exact h1
    | none =>
      rw [hr] at he
      dsimp only at he
      rcases dbLoop_vac_events env args (haltTime env args) l
          ⟨⟨[]⟩, env.startTime, false, 0, 0, [], []⟩ e he with h1 | h1
      · simp at h1
      · exact h1

/-- C1 counterexample: with one database `a` whose candidates are
`t1, t2` and whose maintenance statement on `t1` fails, the process aborts
at once with exit status 1 and `t2` is never started — contradicting the
claim that a failing statement is only logged, that execution continues with
the next candidate, and that the process exits with status 0. -/
theorem c1_counterexample :
    (main envFailFirst args0).2 = Halt.exited 1 ∧
    (main envFailFirst args0).1.vacuums
      = [⟨"a", "t1", 0, none, false⟩] := by
  refine ⟨by decide, by decide⟩

/-- C1 (amended): the failure of a single maintenance statement is logged
and then aborts the entire process with exit status 1; execution does not
continue with the next candidate — the statement trace gains only the
failing statement and the per-table loop reports the process exit. -/
theorem c1_vacuum_failure_aborts_run (env : Env) (args : Args) (halt : Int)
    (db t : String) (rest : List String) (st : RunState)
    (hfail : env.stmtOk db t = false) (hnow : st.now < halt) :
    (tableLoop env args halt db st (t :: rest)).2 = some 1 ∧
    (tableLoop env args halt db st (t :: rest)).1.vacuums =
      st.vacuums ++ [⟨db, t, st.now,
        (if args.enforcetime then some (halt - st.now + 30) else none),
        false⟩] := by
  have h : ¬ st.now ≥ halt := not_le.mpr hnow
  refine ⟨?_, ?_⟩ <;> simp [tableLoop, if_neg h, vacuum, hfail]

/-- C1 witness: the amended statement evaluated on a concrete failing
candidate. -/
theorem c1_witness :
    (tableLoop envFailFirst args0 7200 "a" ⟨⟨[]⟩, 0, false, 0, 0, [], []⟩
      ["t1", "t2"]).2 = some 1 ∧
    (tableLoop envFailFirst args0 7200 "a" ⟨⟨[]⟩, 0, false, 0, 0, [], []⟩
      ["t1", "t2"]).1.vacuums = [⟨"a", "t1", 0, none, false⟩] :=
  c1_vacuum_failure_aborts_run envFailFirst args0 7200 "a" "t1" ["t2"]
    ⟨⟨[]⟩, 0, false, 0, 0, [], []⟩ (by decide) (by decide)

/-- C2 counterexample: with databases `a, b` where the connection to `a`
fails, the whole process exits with status 1 immediately — `a` is not
skipped, no session is ever opened and `b` is never visited (the final state
is the initial state) — contradicting the claim that the failure is fatal to
that database's pass only. -/
theorem c2_counterexample :
    main envConnAFails args0 =
      (⟨⟨[]⟩, 0, false, 0, 0, [], []⟩, Halt.exited 1) := by
  decide

/-- C2 (amended): a failure to open a session to a specific database is
logged and aborts the entire process with exit status 1; the database is not
skipped and the run does not continue with the remaining databases. -/
theorem c2_connection_failure_aborts_run (env : Env) (args : Args)
    (halt : Int) (st : RunState) (db : String) (dbs : List String)
    (hok : env.connectOk db = false) (hdb : db ≠ "") :
    dbLoop env args halt st (db :: dbs) = (st, some (Halt.exited 1)) :=
  dbLoop_cons_connfail env args halt st db dbs hdb hok

/-- C2 witness: the amended statement evaluated on a concrete failing
connection. -/
theorem c2_witness :
    dbLoop envConnAFails args0 7200 ⟨⟨[]⟩, 0, false, 0, 0, [], []⟩ ["a", "b"]
      = (⟨⟨[]⟩, 0, false, 0, 0, [], []⟩, some (Halt.exited 1)) :=
  c2_connection_failure_aborts_run envConnAFails args0 7200
    ⟨⟨[]⟩, 0, false, 0, 0, [], []⟩ "a" ["b"] (by decide) (by decide)

/-- C3 counterexample: with a positive budget of 1 minute (deadline 60) and
databases `a, b`, where vacuuming `a`'s single candidate takes 100 seconds,
the executor still begins a new database pass on `b` after the deadline: the
session to `b` is opened at time 110 ≥ 60 and `db_count` reaches 2 —
contradicting the claim that once the deadline has passed no new database
pass begins and no new session is opened. -/
theorem c3_counterexample :
    (main envSlowVac { args0 with run_min := 1 }).1.sessionOpens
      = [("a", 0), ("b", 110)] ∧
    haltTime envSlowVac { args0 with run_min := 1 } = 60 ∧
    (main envSlowVac { args0 with run_min := 1 }).1.db_count = 2 := by
  refine ⟨by decide, by decide, by decide⟩

/-- C3 (amended): with a non-positive budget no maintenance statement is
ever started and the processed-table count is 0; the deadline, however, is
checked only inside the per-table loop, so maintenance sessions are still
opened for enumerated databases after the deadline, and the run is marked
deadline-halted only when some database yields a candidate. -/
theorem c3_zero_budget_no_work (env : Env) (args : Args)
    (h : args.run_min ≤ 0) :
    (main env args).1.table_count = 0 ∧ (main env args).1.vacuums = [] := by
  have hmul : args.run_min * 60 ≤ 0 := by
    have h60 : (0:Int) ≤ 60 := by norm_num
    have := mul_le_mul_of_nonneg_right h h60
    simpa using this
  have hhalt : haltTime env args ≤ env.startTime := by
    simp only [haltTime]
    omega
  simp only [main]
  cases hg : get_db_list args.dblist (env.connectOk "postgres") env.pgDatabases with
  | exited c => exact ⟨rfl, rfl⟩
  | dbs l =>
    dsimp only
    cases hr : (dbLoop env args (haltTime env args)
        ⟨⟨[]⟩, env.startTime, false, 0, 0, [], []⟩ l).2 with
    | some hh =>
      exact dbLoop_halted env args (haltTime env args) l
        ⟨⟨[]⟩, env.startTime, false, 0, 0, [], []⟩ hhalt
    | none =>
      exact dbLoop_halted env args (haltTime env args) l
        ⟨⟨[]⟩, env.startTime, false, 0, 0, [], []⟩ hhalt

/-- C3 witness: the amended statement evaluated on a concrete 0-minute
budget. -/
theorem c3_witness :
    (main envOneTable { args0 with run_min := 0 }).1.table_count = 0 ∧
    (main envOneTable { args0 with run_min := 0 }).1.vacuums = [] :=
  c3_zero_budget_no_work envOneTable { args0 with run_min := 0 } (by decide)

/-- C4 counterexample: a run over a single database `a` with no candidates
completes normally (exit status 0), yet the first connection opened — the
factory's duplicate, on which autocommit was set — is still open at exit
(`closed = false`): not every opened session is closed on this exit path. -/
theorem c4_counterexample :
    (main envOneTable args0).2 = Halt.exited 0 ∧
    (main envOneTable args0).1.pg.conns
      = [⟨"a", some 0, false⟩, ⟨"a", some 0, true⟩] := by
  refine ⟨by decide, by decide⟩

/-- C4 (amended): not every opened connection is closed on every exit path:
whenever the per-database loop connects to a database successfully, the
first of the two connections opened by `create_connection` (the duplicate on
which the factory set autocommit) is never closed — it is still open, with
autocommit set, in the final state of the loop on every path. -/
theorem c4_duplicate_connection_left_open (env : Env) (args : Args)
    (halt : Int) (st : RunState) (db : String) (dbs : List String)
    (hdb : db ≠ "") (hok : env.connectOk db = true) :
    (dbLoop env args halt st (db :: dbs)).1.pg.conns[st.pg.conns.length]?
      = some ⟨db, some 0, false⟩ := by
  cases hte : st.time_exit
  · cases htl : (tableLoop env args halt db (dbOpenState env st db)
        (env.tables db)).2 with
    | some c =>
      rw [dbLoop_cons_ok_exit env args halt st db dbs c hdb hok hte htl]
      rw [tableLoop_pg]
      dsimp only [dbOpenState]
      exact getElem?_append_cons_length _ _ _
    | none =>
      rw [dbLoop_cons_ok_cont env args halt st db dbs hdb hok hte htl]
      have hlen : (dbNextState env args halt st db).pg.conns.length
          = st.pg.conns.length + 2 := by
        rw [dbNextState_pg]
        simp
      obtain ⟨s1, s2⟩ := dbLoop_pg_stable env args halt dbs
        (dbNextState env args halt st db) st.pg.conns.length (by omega)
      rw [s1, dbNextState_pg]
      exact getElem?_append_cons_length _ _ _
  · rw [dbLoop_cons_te env args halt st db dbs hdb hok hte]
    dsimp only
    exact getElem?_append_cons_length _ _ _

/-- C4 witness: the amended statement evaluated on a concrete run. -/
theorem c4_witness :
    (dbLoop envOneTable args0 7200 ⟨⟨[]⟩, 0, false, 0, 0, [], []⟩
      ["a"]).1.pg.conns[0]? = some ⟨"a", some 0, false⟩ :=
  c4_duplicate_connection_left_open envOneTable args0 7200
    ⟨⟨[]⟩, 0, false, 0, 0, [], []⟩ "a" [] (by decide) (by decide)

/-- C5 counterexample: with 3 candidates on database `a` where the 2nd
fails, the counter reads 2 at exit but only one statement succeeded (it was
incremented for the failing candidate before its statement ran), the 3rd
candidate is never started, and the run terminates early with exit status
1 — contradicting "incremented exactly on success, never for a failing
candidate" and "no early termination". -/
theorem c5_counterexample :
    (main envSecondFails args0).1.table_count = 2 ∧
    (main envSecondFails args0).1.vacuums
      = [⟨"a", "t1", 0, none, true⟩, ⟨"a", "t2", 0, none, false⟩] ∧
    (main envSecondFails args0).2 = Halt.exited 1 := by
  refine ⟨by decide, by decide, by decide⟩

/-- C5 (amended): the processed-table counter counts attempted candidates,
not successes: on every run it equals the number of maintenance statements
started, successful or failing (a failing candidate is counted before its
statement aborts the process, and aborting means later candidates are never
attempted). -/
theorem c5_count_equals_attempts (env : Env) (args : Args) :
    (main env args).1.table_count = (main env args).1.vacuums.length := by
  simp only [main]
  cases hg : get_db_list args.dblist (env.connectOk "postgres") env.pgDatabases with
  | exited c => rfl
  | dbs l =>
    dsimp only
    cases hr : (dbLoop env args (haltTime env args)
        ⟨⟨[]⟩, env.startTime, false, 0, 0, [], []⟩ l).2 with
    | some hh =>
      have := dbLoop_count env args (haltTime env args) l
        ⟨⟨[]⟩, env.startTime, false, 0, 0, [], []⟩
      simpa using this
    | none =>
      have := dbLoop_count env args (haltTime env args) l
        ⟨⟨[]⟩, env.startTime, false, 0, 0, [], []⟩
      simpa using this

/-- C6 counterexample: with no override list and no maintainable database,
enumeration returns the empty sequence and does not fail — contradicting the
claim that it fails with a NoTargetsError. -/
theorem c6_counterexample :
    get_db_list none true [] = GDBResult.dbs [] ∧
    ∀ c : Nat, get_db_list none true [] ≠ GDBResult.exited c :=
  ⟨rfl, fun _ h => GDBResult.noConfusion h⟩

/-- C6 (amended): with no override list, enumeration returns the ranking
query's database sequence verbatim — even when it is empty — because the
`db_list is None` test on a list value is always false, making the
"No database to vacuum" branch unreachable (and that branch would exit with
status 0, not an error, anyway). -/
theorem c6_empty_enumeration_returned (dbs : List String) :
    get_db_list none true dbs = GDBResult.dbs dbs := rfl

/-- C7: for every environment and every configuration — in particular
regardless of the `--enforce-time` flag — the deadline is checked before
each candidate's maintenance statement, and no maintenance statement is ever
started at or after the deadline. -/
theorem c7_no_candidate_after_deadline (env : Env) (args : Args)
    (e : VacEvent) (he : e ∈ (main env args).1.vacuums) :
    e.startedAt < haltTime env args :=
  (main_vac_events env args e he).1

/-- C7 witness: the statement evaluated on a concrete run with one executed
candidate. -/
theorem c7_witness :
    (⟨"a", "t", 0, none, true⟩ : VacEvent).startedAt
      < haltTime envOneTable args0 :=
  c7_no_candidate_after_deadline envOneTable args0
    ⟨"a", "t", 0, none, true⟩ (by decide)

/-- C8: when `--enforce-time` is set, each maintenance statement runs under
a statement timeout equal to the remaining budget (deadline minus the
statement's start time) plus a 30-second grace margin; when the flag is not
set, no timeout is applied to any statement. -/
theorem c8_statement_timeout (env : Env) (args : Args)
    (e : VacEvent) (he : e ∈ (main env args).1.vacuums) :
    e.timeoutApplied =
      (if args.enforcetime then some (haltTime env args - e.startedAt + 30)
        else none) :=
  (main_vac_events env args e he).2

/-- C8 witness: the statement evaluated on a concrete run with
`--enforce-time` set (timeout 7200 - 0 + 30 = 7230). -/
theorem c8_witness :
    (⟨"a", "t", 0, some 7230, true⟩ : VacEvent).timeoutApplied =
      (if ({ args0 with enforcetime := true } : Args).enforcetime
        then some (haltTime envOneTable { args0 with enforcetime := true }
          - (⟨"a", "t", 0, some 7230, true⟩ : VacEvent).startedAt + 30)
        else none) :=
  c8_statement_timeout envOneTable { args0 with enforcetime := true }
    ⟨"a", "t", 0, some 7230, true⟩ (by decide)

/-- C9 counterexample: with no active session (`self.conn` is `None`), the
cleanup handler does not perform a no-op — calling `.cursor()` on `None`
raises an AttributeError and no termination request completes. -/
theorem c9_counterexample :
    (cleanup ⟨[]⟩ none).2 = CleanupResult.attrError ∧
    ∀ n : Nat, (cleanup ⟨[]⟩ none).2 ≠ CleanupResult.done n :=
  ⟨rfl, fun _ h => CleanupResult.noConfusion h⟩

/-- C9 (amended): with an active session the cleanup handler issues exactly
one termination request — scoped to the backends tagged with the
application name `flexible_freeze`, excluding the requester's own backend —
and closes the active session; with no active session it does not perform a
no-op but fails with an AttributeError. -/
theorem c9_cleanup_behavior (s : PgState) (i selfPid : Nat)
    (bs : List Backend) :
    cleanup s (some i) = (conn_close s i, CleanupResult.done 1) ∧
    cleanup s none = (s, CleanupResult.attrError) ∧
    (∀ b : Backend, b ∈ terminate_backend_targets selfPid bs ↔
      (b ∈ bs ∧ b.appName = "flexible_freeze" ∧ b.pid ≠ selfPid)) := by
  refine ⟨rfl, rfl, fun b => ?_⟩
  simp [terminate_backend_targets]

/-- C10: every successful factory call creates two connections to the same
database: autocommit (isolation level 0) is set only on the first, which is
discarded with `closed = false`, while the connection returned to the caller
is the second, on which the factory set no isolation level. -/
theorem c10_factory_two_connections (s : PgState) (db : String)
    (h : db ≠ "") :
    create_connection s true db =
      (⟨s.conns ++ [⟨db, some 0, false⟩, ⟨db, none, false⟩]⟩,
        CCResult.conn (s.conns.length + 1)) ∧
    (s.conns ++ [⟨db, some 0, false⟩, ⟨db, none, false⟩])[s.conns.length]?
      = some ⟨db, some 0, false⟩ ∧
    (s.conns ++ [⟨db, some 0, false⟩, ⟨db, none, false⟩])[s.conns.length + 1]?
      = some ⟨db, none, false⟩ := by
  refine ⟨create_connection_ok s db h, getElem?_append_cons_length _ _ _, ?_⟩
  have h2 := getElem?_append_cons_length (s.conns ++ [⟨db, some 0, false⟩])
    ([] : List PgConn) (⟨db, none, false⟩ : PgConn)
  simpa [List.append_assoc] using h2

/-- C10 witness: the statement evaluated on an empty ledger and database
`a`. -/
theorem c10_witness :
    create_connection ⟨[]⟩ true "a" =
      (⟨[⟨"a", some 0, false⟩, ⟨"a", none, false⟩]⟩, CCResult.conn 1) ∧
    ([⟨"a", some 0, false⟩, ⟨"a", none, false⟩] : List PgConn)[0]?
      = some ⟨"a", some 0, false⟩ ∧
    ([⟨"a", some 0, false⟩, ⟨"a", none, false⟩] : List PgConn)[1]?
      = some ⟨"a", none, false⟩ :=
  c10_factory_two_connections ⟨[]⟩ "a" (by decide)

end FlexibleFreeze
